import Mathlib

/-!
Verification of the sustainability-app (src/app.py).

A shallow embedding of the carbon-footprint tracker's core logic:
the CO₂-savings calculator, the entry construction performed by the
Daily/Weekly Tracker handlers, the `has_daily` / `has_weekly` gating
flags (including Python's `date.isocalendar().week` computation on
proleptic-Gregorian day numbers), the local-mode leaderboard, and the
local-mode account-creation / guest-migration handler.

Numeric values are modelled as rationals; dates as natural numbers
counting days since 1970-01-01 (a Thursday).
-/

namespace SustainApp

/-- Habit values keyed by the five habit fields.  A Python dict read with
`.get(field, 0)` is total with default 0, which a structure of rationals
captures (an absent key is the value 0). -/
structure HabitVals where
  miles : ℚ
  shower_minutes : ℚ
  plastic_bottles : ℚ
  takeout_meals : ℚ
  laundry_loads : ℚ
deriving DecidableEq, Repr

/-- Emission factor for a mile driven (`EF_MILE = 0.9`, app.py line 33). -/
def EF_MILE : ℚ := 9 / 10

/-- Emission factor for a shower minute (`EF_SHOWER = 0.05`, app.py line 34). -/
def EF_SHOWER : ℚ := 1 / 20

/-- Emission factor for a plastic bottle (`EF_PLASTIC = 0.1`, app.py line 35). -/
def EF_PLASTIC : ℚ := 1 / 10

/-- Emission factor for a takeout meal (`EF_TAKEOUT = 0.5`, app.py line 36). -/
def EF_TAKEOUT : ℚ := 1 / 2

/-- Emission factor for a laundry load (`EF_LAUNDRY = 2.5`, app.py line 37). -/
def EF_LAUNDRY : ℚ := 5 / 2

/-- The function `calculate_co2_savings(entry, baseline, entry_type)` (app.py lines 77-88).
The daily branch sums the miles, shower and plastic contributions; any other
`entry_type` (in particular `"weekly"`) additionally sums the takeout and
laundry contributions, laundry divided by 7. -/
def calculate_co2_savings (entry baseline : HabitVals) (entry_type : String) : ℚ :=
  let miles_saving := max (baseline.miles - entry.miles) 0 * EF_MILE
  let shower_saving := max (baseline.shower_minutes - entry.shower_minutes) 0 * EF_SHOWER
  let plastic_saving := max (baseline.plastic_bottles - entry.plastic_bottles) 0 * EF_PLASTIC
  if entry_type = "daily" then
    miles_saving + shower_saving + plastic_saving
  else
    let takeout_saving := max (baseline.takeout_meals - entry.takeout_meals) 0 * EF_TAKEOUT
    let laundry_saving := max (baseline.laundry_loads - entry.laundry_loads) 0 / 7 * EF_LAUNDRY
    miles_saving + shower_saving + plastic_saving + takeout_saving + laundry_saving

/-! Section: Dates and the ISO calendar

Dates are natural numbers counting days since 1970-01-01, which is a
Thursday.  `isoWeekNum` is Python's `date.isocalendar().week`: the week
number of the Thursday belonging to the date's Monday-aligned week, within
that Thursday's proleptic-Gregorian year. -/

/-- Two dates are in the same ISO week (Monday .. Sunday) exactly when they
have the same `isoWeekBlock`: day 4 (1970-01-05) is a Monday, so the blocks
of seven days starting at `7*k + 4` are the ISO weeks, and `(d + 3) / 7`
indexes them. -/
def isoWeekBlock (d : ℕ) : ℕ := (d + 3) / 7

/-- The Thursday of the ISO week containing day `d`. -/
def isoThursday (d : ℕ) : ℕ := 7 * isoWeekBlock d

/-- Day number of January 1 of year `y` (proleptic Gregorian, `y ≥ 1970`). -/
def jan1 (y : ℕ) : ℕ :=
  let yp := y - 1
  let era := yp / 400
  let yoe := yp % 400
  let doe := yoe * 365 + yoe / 4 - yoe / 100 + 306
  era * 146097 + doe - 719468

/-- Calendar year containing day `d` (proleptic Gregorian). -/
def yearOfDay (d : ℕ) : ℕ :=
  let z := d + 719468
  let era := z / 146097
  let doe := z % 146097
  let yoe := (doe - doe / 1460 + doe / 36524 - doe / 146096) / 365
  let y := yoe + era * 400
  let doy := doe - (365 * yoe + yoe / 4 - yoe / 100)
  if 306 ≤ doy then y + 1 else y

/-- Python's `date.isocalendar().week` for day `d`: the ISO 8601 week
number.  The week number of a date is the ordinal of its week's Thursday
within that Thursday's calendar year. -/
def isoWeekNum (d : ℕ) : ℕ :=
  let t := isoThursday d
  (t - jan1 (yearOfDay t) + 7) / 7

/-! Section: Entries -/

/-- One row of a user's entry file (app.py lines 407-417 and 446-456).
The `timestamp` column is not modelled; `takeout_meals` and `laundry_loads`
are `None` on daily entries, hence `Option`. -/
structure Entry where
  date : ℕ
  entry_type : String
  miles : ℚ
  shower_minutes : ℚ
  plastic_bottles : ℚ
  takeout_meals : Option ℚ
  laundry_loads : Option ℚ
  co2_saved : ℚ
deriving DecidableEq, Repr

/-- The entry built by the Daily Tracker's "Save Daily Entry" handler
(app.py lines 406-417): form values for miles/shower/plastic, `None` for
the weekly fields, and the savings computed with an entry dict that has no
takeout/laundry keys (so those read as 0 via `.get`). -/
def mkDailyEntry (today : ℕ) (baseline : HabitVals) (m s p : ℚ) : Entry :=
  { date := today
    entry_type := "daily"
    miles := m
    shower_minutes := s
    plastic_bottles := p
    takeout_meals := none
    laundry_loads := none
    co2_saved := calculate_co2_savings ⟨m, s, p, 0, 0⟩ baseline "daily" }

/-- The entry built by the Weekly Tracker's "Save Weekly Entry" handler
(app.py lines 445-456): the daily fields are filled with the user's current
baseline values, and the savings are computed from that same dict. -/
def mkWeeklyEntry (today : ℕ) (baseline : HabitVals) (t l : ℚ) : Entry :=
  { date := today
    entry_type := "weekly"
    miles := baseline.miles
    shower_minutes := baseline.shower_minutes
    plastic_bottles := baseline.plastic_bottles
    takeout_meals := some t
    laundry_loads := some l
    co2_saved := calculate_co2_savings
      ⟨baseline.miles, baseline.shower_minutes, baseline.plastic_bottles, t, l⟩
      baseline "weekly" }

/-! Section: The `has_daily` / `has_weekly` gating flags (app.py lines 356-369) -/

/-- Maximum of a list of day numbers; `none` on the empty list (pandas
`df["date"].max()` guarded by an emptiness check). -/
def maxDate : List ℕ → Option ℕ
  | [] => none
  | d :: ds =>
    some (match maxDate ds with
      | none => d
      | some m => max d m)

/-- Dates of the daily entries (`dfl[dfl["entry_type"]=="daily"]["date"]`). -/
def dailyDates (es : List Entry) : List ℕ :=
  (es.filter fun e => e.entry_type == "daily").map fun e => e.date

/-- Dates of the weekly entries. -/
def weeklyDates (es : List Entry) : List ℕ :=
  (es.filter fun e => e.entry_type == "weekly").map fun e => e.date

/-- Flag `has_daily`: the latest daily-entry date equals today (app.py 364-365). -/
def has_daily (es : List Entry) (today : ℕ) : Bool :=
  match maxDate (dailyDates es) with
  | none => false
  | some m => m == today

/-- Flag `has_weekly`: the latest weekly entry's ISO week NUMBER equals today's
(app.py 366-367).  Note the code compares `isocalendar().week` only — the
ISO year is not part of the comparison. -/
def has_weekly (es : List Entry) (today : ℕ) : Bool :=
  match maxDate (weeklyDates es) with
  | none => false
  | some m => isoWeekNum m == isoWeekNum today

/-! Section: The gated submission flow (app.py lines 398-434 and 440-472) -/

/-- A form submission: the values typed into the Daily or Weekly Tracker. -/
inductive Op where
  | daily (m s p : ℚ)
  | weekly (t l : ℚ)
deriving DecidableEq, Repr

/-- One interaction at date `today`: the form is only offered (and the
entry appended to the file) when the corresponding flag is off. -/
def step (baseline : HabitVals) (es : List Entry) (today : ℕ) : Op → List Entry
  | Op.daily m s p =>
    if has_daily es today then es else es ++ [mkDailyEntry today baseline m s p]
  | Op.weekly t l =>
    if has_weekly es today then es else es ++ [mkWeeklyEntry today baseline t l]

/-- Run a sequence of dated submissions from a given entry log. -/
def runFrom (baseline : HabitVals) (es : List Entry) : List (ℕ × Op) → List Entry
  | [] => es
  | (d, op) :: tr => runFrom baseline (step baseline es d op) tr

/-- Run a sequence of dated submissions from the empty entry log. -/
def runTrace (baseline : HabitVals) (tr : List (ℕ × Op)) : List Entry :=
  runFrom baseline [] tr

/-- The dates of a trace are non-decreasing and start no earlier than `d`:
real traces are ordered by the wall clock. -/
def sortedFrom (d : ℕ) : List (ℕ × Op) → Prop
  | [] => True
  | (e, _) :: tr => d ≤ e ∧ sortedFrom e tr

/-- The date of the last event of a trace (or `d` if it is empty). -/
def endDate (d : ℕ) : List (ℕ × Op) → ℕ
  | [] => d
  | (e, _) :: tr => endDate e tr

/-- Every entry is dated no later than `d`. -/
def Bounded (es : List Entry) (d : ℕ) : Prop := ∀ e ∈ es, e.date ≤ d

/-- At most one daily entry per calendar date. -/
def DailyAtMostOne (es : List Entry) : Prop :=
  ∀ d, es.countP (fun e => e.entry_type == "daily" && e.date == d) ≤ 1

/-- At most one weekly entry per ISO week. -/
def WeeklyAtMostOne (es : List Entry) : Prop :=
  ∀ w, es.countP (fun e => e.entry_type == "weekly" && isoWeekBlock e.date == w) ≤ 1

/-- The entry-log invariant, relative to the current date. -/
def Good (es : List Entry) (d : ℕ) : Prop :=
  Bounded es d ∧ DailyAtMostOne es ∧ WeeklyAtMostOne es

/-! Section: Local user store and account creation (app.py lines 298-327) -/

/-- One record of `users.json`: password hash (absent for guests), baseline,
guest flag. -/
structure UserRec where
  password : Option String
  baseline : HabitVals
  is_guest : Bool
deriving DecidableEq, Repr

/-- The local persistent state: the `users.json` mapping and the per-user
entry files of `user_data/` (a key is present exactly when the file
exists). -/
structure LocalState where
  users : List (String × UserRec)
  files : List (String × List Entry)
deriving DecidableEq, Repr

/-- Remove a key from an association list (deleting a file). -/
def eraseKey {β : Type} (k : String) (l : List (String × β)) : List (String × β) :=
  l.filter fun p => p.1 ≠ k

/-- Write a key in an association list (writing a file, overwriting). -/
def setKey {β : Type} (k : String) (v : β) (l : List (String × β)) : List (String × β) :=
  (k, v) :: eraseKey k l

/-- The local "Create Account & Import Guest Data" handler (app.py lines
308-327).  If the username already exists nothing changes (an error is
shown).  Otherwise the new record is written with the FORM baseline and the
hash of the new password; then, when the session is a guest session, the
guest's entry file (if it exists) is renamed to the new username's file via
`os.replace`.  The guest's `users.json` record is NOT touched. -/
def create_local_user (s : LocalState) (sessionGuest : Bool) (sessionUsername : String)
    (new_user : String) (new_pass_hash : String) (formBaseline : HabitVals) : LocalState :=
  if (s.users.lookup new_user).isSome then s
  else
    let users := (new_user, ⟨some new_pass_hash, formBaseline, false⟩) :: s.users
    let files :=
      if sessionGuest ∧ sessionUsername ≠ "" then
        match s.files.lookup sessionUsername with
        | some log => setKey new_user log (eraseKey sessionUsername s.files)
        | none => s.files
      else s.files
    ⟨users, files⟩

/-! Section: Leaderboard (local mode, app.py lines 520-533) -/

/-- Total savings of one entry file (`df_temp["co2_saved"].sum()`). -/
def userTotal (log : List Entry) : ℚ := (log.map fun e => e.co2_saved).sum

/-- Descending order on leaderboard rows: `sort(key=..., reverse=True)`. -/
def byTotalDesc (a b : String × ℚ) : Prop := b.2 ≤ a.2

instance : DecidableRel byTotalDesc := fun a b => inferInstanceAs (Decidable (b.2 ≤ a.2))

instance : IsTotal (String × ℚ) byTotalDesc :=
  ⟨fun a b => (le_total b.2 a.2).imp id id⟩

instance : IsTrans (String × ℚ) byTotalDesc :=
  ⟨fun _ _ _ h1 h2 => le_trans h2 h1⟩

/-- The local leaderboard: for each `users.json` record in order, skip
guests, skip users whose entry file does not exist, pair the rest with the
sum of their file's `co2_saved` column; then sort descending by total. -/
def leaderboard (users : List (String × UserRec)) (files : List (String × List Entry)) :
    List (String × ℚ) :=
  (users.filterMap fun p =>
    if p.2.is_guest then none
    else (files.lookup p.1).map fun log => (p.1, userTotal log)).insertionSort byTotalDesc

/-! Section: Streak (spec-modelled) -/

/-- Is there at least one entry dated `d`? -/
def hasEntryOn (es : List Entry) (d : ℕ) : Bool := es.any fun e => e.date == d

/-- Modelled from the spec: src/app.py contains no streak computation (the
spec's Status/Streak component covers other variants of this repository),
so the streak is modelled from §4.2 of the spec: "compute the count of
consecutive calendar days ending today that have at least one entry". -/
def streak (es : List Entry) : ℕ → ℕ
  | 0 => if hasEntryOn es 0 then 1 else 0
  | n + 1 => if hasEntryOn es (n + 1) then streak es n + 1 else 0

/-! Section: Helper lemmas on the calculator -/

/-- The daily branch of `calculate_co2_savings`, spelled out. -/
theorem calculate_daily (e b : HabitVals) :
    calculate_co2_savings e b "daily"
      = max (b.miles - e.miles) 0 * EF_MILE
        + max (b.shower_minutes - e.shower_minutes) 0 * EF_SHOWER
        + max (b.plastic_bottles - e.plastic_bottles) 0 * EF_PLASTIC := rfl

/-- The weekly branch of `calculate_co2_savings`, spelled out. -/
theorem calculate_weekly (e b : HabitVals) :
    calculate_co2_savings e b "weekly"
      = max (b.miles - e.miles) 0 * EF_MILE
        + max (b.shower_minutes - e.shower_minutes) 0 * EF_SHOWER
        + max (b.plastic_bottles - e.plastic_bottles) 0 * EF_PLASTIC
        + max (b.takeout_meals - e.takeout_meals) 0 * EF_TAKEOUT
        + max (b.laundry_loads - e.laundry_loads) 0 / 7 * EF_LAUNDRY := rfl

/-- Clamped difference is antitone in the subtrahend. -/
theorem clamp_anti {b x y : ℚ} (h : x ≤ y) : max (b - y) 0 ≤ max (b - x) 0 :=
  max_le_max (by linarith) le_rfl

/-- The savings are antitone in the entry, pointwise over all five fields,
for any entry type. -/
theorem calculate_antitone (e1 e2 b : HabitVals) (ty : String)
    (h1 : e1.miles ≤ e2.miles) (h2 : e1.shower_minutes ≤ e2.shower_minutes)
    (h3 : e1.plastic_bottles ≤ e2.plastic_bottles)
    (h4 : e1.takeout_meals ≤ e2.takeout_meals) (h5 : e1.laundry_loads ≤ e2.laundry_loads) :
    calculate_co2_savings e2 b ty ≤ calculate_co2_savings e1 b ty := by
  have efm : (0:ℚ) ≤ EF_MILE := by norm_num [EF_MILE]
  have efs : (0:ℚ) ≤ EF_SHOWER := by norm_num [EF_SHOWER]
  have efp : (0:ℚ) ≤ EF_PLASTIC := by norm_num [EF_PLASTIC]
  have eft : (0:ℚ) ≤ EF_TAKEOUT := by norm_num [EF_TAKEOUT]
  have efl : (0:ℚ) ≤ EF_LAUNDRY := by norm_num [EF_LAUNDRY]
  unfold calculate_co2_savings
  dsimp only
  split
  · exact add_le_add (add_le_add
      (mul_le_mul_of_nonneg_right (clamp_anti h1) efm)
      (mul_le_mul_of_nonneg_right (clamp_anti h2) efs))
      (mul_le_mul_of_nonneg_right (clamp_anti h3) efp)
  · refine add_le_add (add_le_add (add_le_add (add_le_add
      (mul_le_mul_of_nonneg_right (clamp_anti h1) efm)
      (mul_le_mul_of_nonneg_right (clamp_anti h2) efs))
      (mul_le_mul_of_nonneg_right (clamp_anti h3) efp))
      (mul_le_mul_of_nonneg_right (clamp_anti h4) eft)) ?_
    exact mul_le_mul_of_nonneg_right
      (div_le_div_of_nonneg_right (clamp_anti h5) (by norm_num)) efl

/-! Section: C1, C2, C7, C8, C9, C10: the Savings Calculator -/

/-- C1: for every entry and baseline, `calculate_co2_savings` returns the
sum over the fields relevant to the entry type of
`max(baseline[field] - entry[field], 0)` times that field's fixed emission
factor: a daily entry sums miles (0.9), shower minutes (0.05) and plastic
bottles (0.1); a weekly entry additionally sums takeout meals (0.5) and
laundry loads divided by 7 (factor 2.5). -/
theorem C1_savings_formula (e b : HabitVals) :
    calculate_co2_savings e b "daily"
      = max (b.miles - e.miles) 0 * (9/10)
        + max (b.shower_minutes - e.shower_minutes) 0 * (1/20)
        + max (b.plastic_bottles - e.plastic_bottles) 0 * (1/10)
    ∧ calculate_co2_savings e b "weekly"
      = max (b.miles - e.miles) 0 * (9/10)
        + max (b.shower_minutes - e.shower_minutes) 0 * (1/20)
        + max (b.plastic_bottles - e.plastic_bottles) 0 * (1/10)
        + max (b.takeout_meals - e.takeout_meals) 0 * (1/2)
        + max (b.laundry_loads - e.laundry_loads) 0 / 7 * (5/2) := by
  constructor
  · rw [calculate_daily]; norm_num [EF_MILE, EF_SHOWER, EF_PLASTIC]
  · rw [calculate_weekly]; norm_num [EF_MILE, EF_SHOWER, EF_PLASTIC, EF_TAKEOUT, EF_LAUNDRY]

/-- C2 (counterexample): on baseline `{miles: 5, shower_minutes: 10,
plastic_bottles: 2}` and daily entry `{miles: 2, shower_minutes: 8,
plastic_bottles: 1}` the code does NOT return 2.8. -/
theorem C2_counterexample :
    calculate_co2_savings ⟨2, 8, 1, 0, 0⟩ ⟨5, 10, 2, 0, 0⟩ "daily" ≠ 28 / 10 := by
  rw [calculate_daily]
  norm_num [EF_MILE, EF_SHOWER, EF_PLASTIC, max_def]

/-- C2 (amended): on baseline `{miles: 5, shower_minutes: 10,
plastic_bottles: 2}` and daily entry `{miles: 2, shower_minutes: 8,
plastic_bottles: 1}`, `calculate_co2_savings` returns
`3*0.9 + 2*0.05 + 1*0.1 = 2.9`. -/
theorem C2_savings_example :
    calculate_co2_savings ⟨2, 8, 1, 0, 0⟩ ⟨5, 10, 2, 0, 0⟩ "daily" = 29 / 10 := by
  rw [calculate_daily]
  norm_num [EF_MILE, EF_SHOWER, EF_PLASTIC, max_def]

/-- C7: for every baseline, entry and entry type, the savings are
monotonically non-increasing in each entry field with the other entry
fields and the baseline held fixed: raising any single entry field from
`x` to `y ≥ x` never increases the result. -/
theorem C7_savings_antitone (e b : HabitVals) (ty : String) (x y : ℚ) (hxy : x ≤ y) :
    calculate_co2_savings { e with miles := y } b ty
      ≤ calculate_co2_savings { e with miles := x } b ty
  ∧ calculate_co2_savings { e with shower_minutes := y } b ty
      ≤ calculate_co2_savings { e with shower_minutes := x } b ty
  ∧ calculate_co2_savings { e with plastic_bottles := y } b ty
      ≤ calculate_co2_savings { e with plastic_bottles := x } b ty
  ∧ calculate_co2_savings { e with takeout_meals := y } b ty
      ≤ calculate_co2_savings { e with takeout_meals := x } b ty
  ∧ calculate_co2_savings { e with laundry_loads := y } b ty
      ≤ calculate_co2_savings { e with laundry_loads := x } b ty :=
  ⟨calculate_antitone _ _ b ty hxy le_rfl le_rfl le_rfl le_rfl,
   calculate_antitone _ _ b ty le_rfl hxy le_rfl le_rfl le_rfl,
   calculate_antitone _ _ b ty le_rfl le_rfl hxy le_rfl le_rfl,
   calculate_antitone _ _ b ty le_rfl le_rfl le_rfl hxy le_rfl,
   calculate_antitone _ _ b ty le_rfl le_rfl le_rfl le_rfl hxy⟩

/-- Witness for C7 at a concrete input. -/
theorem C7_savings_antitone_witness :
    ((0:ℚ) ≤ 1)
    ∧ (calculate_co2_savings { HabitVals.mk 1 2 1 2 1 with miles := 1 } ⟨5, 10, 2, 3, 3⟩ "daily"
        ≤ calculate_co2_savings { HabitVals.mk 1 2 1 2 1 with miles := 0 } ⟨5, 10, 2, 3, 3⟩ "daily"
      ∧ calculate_co2_savings { HabitVals.mk 1 2 1 2 1 with shower_minutes := 1 } ⟨5, 10, 2, 3, 3⟩ "daily"
        ≤ calculate_co2_savings { HabitVals.mk 1 2 1 2 1 with shower_minutes := 0 } ⟨5, 10, 2, 3, 3⟩ "daily"
      ∧ calculate_co2_savings { HabitVals.mk 1 2 1 2 1 with plastic_bottles := 1 } ⟨5, 10, 2, 3, 3⟩ "daily"
        ≤ calculate_co2_savings { HabitVals.mk 1 2 1 2 1 with plastic_bottles := 0 } ⟨5, 10, 2, 3, 3⟩ "daily"
      ∧ calculate_co2_savings { HabitVals.mk 1 2 1 2 1 with takeout_meals := 1 } ⟨5, 10, 2, 3, 3⟩ "daily"
        ≤ calculate_co2_savings { HabitVals.mk 1 2 1 2 1 with takeout_meals := 0 } ⟨5, 10, 2, 3, 3⟩ "daily"
      ∧ calculate_co2_savings { HabitVals.mk 1 2 1 2 1 with laundry_loads := 1 } ⟨5, 10, 2, 3, 3⟩ "daily"
        ≤ calculate_co2_savings { HabitVals.mk 1 2 1 2 1 with laundry_loads := 0 } ⟨5, 10, 2, 3, 3⟩ "daily") :=
  ⟨by norm_num, C7_savings_antitone ⟨1, 2, 1, 2, 1⟩ ⟨5, 10, 2, 3, 3⟩ "daily" 0 1 (by norm_num)⟩

/-- C8: whenever the entry is at least the baseline on every field relevant
to the entry type (the three daily fields for a daily entry, all five for a
weekly entry), the computed savings are exactly 0. -/
theorem C8_savings_zero_when_over_baseline (e b : HabitVals) :
    (b.miles ≤ e.miles → b.shower_minutes ≤ e.shower_minutes →
      b.plastic_bottles ≤ e.plastic_bottles →
      calculate_co2_savings e b "daily" = 0)
  ∧ (b.miles ≤ e.miles → b.shower_minutes ≤ e.shower_minutes →
      b.plastic_bottles ≤ e.plastic_bottles → b.takeout_meals ≤ e.takeout_meals →
      b.laundry_loads ≤ e.laundry_loads →
      calculate_co2_savings e b "weekly" = 0) := by
  constructor
  · intro h1 h2 h3
    rw [calculate_daily, max_eq_right (sub_nonpos.mpr h1), max_eq_right (sub_nonpos.mpr h2),
      max_eq_right (sub_nonpos.mpr h3)]
    ring
  · intro h1 h2 h3 h4 h5
    rw [calculate_weekly, max_eq_right (sub_nonpos.mpr h1), max_eq_right (sub_nonpos.mpr h2),
      max_eq_right (sub_nonpos.mpr h3), max_eq_right (sub_nonpos.mpr h4),
      max_eq_right (sub_nonpos.mpr h5)]
    ring

/-- Witness for C8 at a concrete input. -/
theorem C8_savings_zero_when_over_baseline_witness :
    ((5:ℚ) ≤ 6 ∧ (10:ℚ) ≤ 11 ∧ (2:ℚ) ≤ 2) ∧
      calculate_co2_savings ⟨6, 11, 2, 0, 0⟩ ⟨5, 10, 2, 0, 0⟩ "daily" = 0 :=
  ⟨⟨by norm_num, by norm_num, by norm_num⟩,
   (C8_savings_zero_when_over_baseline ⟨6, 11, 2, 0, 0⟩ ⟨5, 10, 2, 0, 0⟩).1
     (by norm_num) (by norm_num) (by norm_num)⟩

/-- C9: for every entry, baseline with non-negative values, and entry type,
the computed savings are non-negative — per-category clamping at zero means
excess usage never produces a negative result. -/
theorem C9_savings_nonneg (e b : HabitVals) (ty : String)
    (h1 : 0 ≤ b.miles) (h2 : 0 ≤ b.shower_minutes) (h3 : 0 ≤ b.plastic_bottles)
    (h4 : 0 ≤ b.takeout_meals) (h5 : 0 ≤ b.laundry_loads) :
    0 ≤ calculate_co2_savings e b ty := by
  have t1 : (0:ℚ) ≤ max (b.miles - e.miles) 0 * EF_MILE :=
    mul_nonneg (le_max_right _ _) (by norm_num [EF_MILE])
  have t2 : (0:ℚ) ≤ max (b.shower_minutes - e.shower_minutes) 0 * EF_SHOWER :=
    mul_nonneg (le_max_right _ _) (by norm_num [EF_SHOWER])
  have t3 : (0:ℚ) ≤ max (b.plastic_bottles - e.plastic_bottles) 0 * EF_PLASTIC :=
    mul_nonneg (le_max_right _ _) (by norm_num [EF_PLASTIC])
  have t4 : (0:ℚ) ≤ max (b.takeout_meals - e.takeout_meals) 0 * EF_TAKEOUT :=
    mul_nonneg (le_max_right _ _) (by norm_num [EF_TAKEOUT])
  have t5 : (0:ℚ) ≤ max (b.laundry_loads - e.laundry_loads) 0 / 7 * EF_LAUNDRY :=
    mul_nonneg (div_nonneg (le_max_right _ _) (by norm_num)) (by norm_num [EF_LAUNDRY])
  unfold calculate_co2_savings
  dsimp only
  split
  · exact add_nonneg (add_nonneg t1 t2) t3
  · exact add_nonneg (add_nonneg (add_nonneg (add_nonneg t1 t2) t3) t4) t5

/-- Witness for C9 at a concrete input. -/
theorem C9_savings_nonneg_witness :
    ((0:ℚ) ≤ 5 ∧ (0:ℚ) ≤ 10 ∧ (0:ℚ) ≤ 2 ∧ (0:ℚ) ≤ 3 ∧ (0:ℚ) ≤ 3) ∧
      0 ≤ calculate_co2_savings ⟨9, 9, 9, 9, 9⟩ ⟨5, 10, 2, 3, 3⟩ "weekly" :=
  ⟨⟨by norm_num, by norm_num, by norm_num, by norm_num, by norm_num⟩,
   C9_savings_nonneg ⟨9, 9, 9, 9, 9⟩ ⟨5, 10, 2, 3, 3⟩ "weekly"
     (by norm_num) (by norm_num) (by norm_num) (by norm_num) (by norm_num)⟩

/-- C10: every entry built by the Weekly Tracker's handler carries the
user's current baseline values in its miles, shower and plastic fields, so
its stored `co2_saved` is exactly the takeout and laundry contributions —
the miles, shower and plastic terms contribute 0. -/
theorem C10_weekly_entry_baseline_fields (b : HabitVals) (t l : ℚ) (today : ℕ) :
    (mkWeeklyEntry today b t l).miles = b.miles
  ∧ (mkWeeklyEntry today b t l).shower_minutes = b.shower_minutes
  ∧ (mkWeeklyEntry today b t l).plastic_bottles = b.plastic_bottles
  ∧ (mkWeeklyEntry today b t l).co2_saved
      = max (b.takeout_meals - t) 0 * EF_TAKEOUT
        + max (b.laundry_loads - l) 0 / 7 * EF_LAUNDRY := by
  refine ⟨rfl, rfl, rfl, ?_⟩
  show calculate_co2_savings ⟨b.miles, b.shower_minutes, b.plastic_bottles, t, l⟩ b "weekly" = _
  rw [calculate_weekly]
  simp

/-- C6: the (spec-modelled) streak logic counts the consecutive calendar
days ending today that have at least one entry: if each of the `N` days
ending today has an entry and the day before those has none, the streak is
exactly `N`. -/
theorem C6_streak_counts_consecutive_days (es : List Entry) (today N : ℕ)
    (hN : N ≤ today)
    (hrun : ∀ k, k < N → hasEntryOn es (today - k) = true)
    (hgap : hasEntryOn es (today - N) = false) :
    streak es today = N := by
  induction N generalizing today with
  | zero =>
    cases today with
    | zero => simpa [streak] using hgap
    | succ t => simp only [streak]; simpa using hgap
  | succ N ih =>
    have h0 : hasEntryOn es today = true := by simpa using hrun 0 (Nat.succ_pos N)
    cases today with
    | zero => omega
    | succ t =>
      have hNt : N ≤ t := Nat.succ_le_succ_iff.mp hN
      rw [streak, if_pos h0]
      have hr : ∀ k, k < N → hasEntryOn es (t - k) = true := by
        intro k hk
        simpa [Nat.succ_sub_succ] using hrun (k + 1) (Nat.succ_lt_succ hk)
      have hg : hasEntryOn es (t - N) = false := by
        simpa [Nat.succ_sub_succ] using hgap
      rw [ih t hNt hr hg]

/-- Witness for C6: entries on days 4 and 5, none on day 3, today is day 5:
the streak is 2. -/
theorem C6_streak_counts_consecutive_days_witness :
    (2 ≤ 5
      ∧ (∀ k, k < 2 →
          hasEntryOn [Entry.mk 5 "daily" 0 0 0 none none 0, Entry.mk 4 "daily" 0 0 0 none none 0]
            (5 - k) = true)
      ∧ hasEntryOn [Entry.mk 5 "daily" 0 0 0 none none 0, Entry.mk 4 "daily" 0 0 0 none none 0]
          (5 - 2) = false)
    ∧ streak [Entry.mk 5 "daily" 0 0 0 none none 0, Entry.mk 4 "daily" 0 0 0 none none 0] 5 = 2 :=
  ⟨⟨by decide, by decide, by decide⟩,
   C6_streak_counts_consecutive_days _ 5 2 (by decide) (by decide) (by decide)⟩

/-! Section: Lookup lemmas for the file-store operations -/

/-- Looking up the key just written at the head. -/
theorem lookup_cons_eq {β : Type} (k : String) (v : β) (t : List (String × β)) :
    ((k, v) :: t).lookup k = some v := by
  simp [List.lookup]

/-- Looking up a different key skips the head. -/
theorem lookup_cons_ne {β : Type} (a k : String) (v : β) (t : List (String × β)) (h : k ≠ a) :
    ((a, v) :: t).lookup k = t.lookup k := by
  have hb : (k == a) = false := beq_eq_false_iff_ne.mpr h
  simp [List.lookup, hb]

/-- Erasing the head's key drops the head. -/
theorem eraseKey_cons_eq {β : Type} (k : String) (v : β) (t : List (String × β)) :
    eraseKey k ((k, v) :: t) = eraseKey k t := by
  simp [eraseKey, List.filter_cons]

/-- Erasing a different key keeps the head. -/
theorem eraseKey_cons_ne {β : Type} (a k : String) (v : β) (t : List (String × β)) (h : a ≠ k) :
    eraseKey k ((a, v) :: t) = (a, v) :: eraseKey k t := by
  simp [eraseKey, List.filter_cons, h]

/-- Erasing a key removes its binding. -/
theorem lookup_eraseKey_self {β : Type} (k : String) (l : List (String × β)) :
    (eraseKey k l).lookup k = none := by
  induction l with
  | nil => rfl
  | cons p t ih =>
    rcases p with ⟨a, v⟩
    by_cases h : a = k
    · subst h; rw [eraseKey_cons_eq]; exact ih
    · rw [eraseKey_cons_ne _ _ _ _ h, lookup_cons_ne _ _ _ _ (Ne.symm h)]; exact ih

/-- Erasing one key leaves other lookups unchanged. -/
theorem lookup_eraseKey_ne {β : Type} (k q : String) (l : List (String × β)) (h : q ≠ k) :
    (eraseKey k l).lookup q = l.lookup q := by
  induction l with
  | nil => rfl
  | cons p t ih =>
    rcases p with ⟨a, v⟩
    by_cases ha : a = k
    · subst ha; rw [eraseKey_cons_eq, lookup_cons_ne _ _ _ _ h]; exact ih
    · by_cases hq : q = a
      · subst hq
        rw [eraseKey_cons_ne _ _ _ _ ha, lookup_cons_eq, lookup_cons_eq]
      · rw [eraseKey_cons_ne _ _ _ _ ha, lookup_cons_ne _ _ _ _ hq,
          lookup_cons_ne _ _ _ _ hq]
        exact ih

/-- Writing a key makes its lookup return the written value. -/
theorem lookup_setKey_self {β : Type} (k : String) (v : β) (l : List (String × β)) :
    (setKey k v l).lookup k = some v := by
  rw [setKey]; exact lookup_cons_eq _ _ _

/-- Writing one key leaves other lookups unchanged. -/
theorem lookup_setKey_ne {β : Type} (k q : String) (v : β) (l : List (String × β)) (h : q ≠ k) :
    (setKey k v l).lookup q = l.lookup q := by
  rw [setKey, lookup_cons_ne _ _ _ _ h]
  exact lookup_eraseKey_ne k q l h

/-! Section: C3: guest migration on local account creation -/

/-- C3 (counterexample): creating the account "alice" from a guest session
(guest baseline `{5,10,2,3,3}`, form baseline `{1,2,3,4,5}`) leaves the
guest's `users.json` record in place — it is not deleted — and gives the
new record the form baseline, not the guest's baseline. -/
theorem C3_counterexample :
    ((create_local_user
        ⟨[("guest-green-sun-123", ⟨none, ⟨5, 10, 2, 3, 3⟩, true⟩)],
          [("guest-green-sun-123", [])]⟩
        true "guest-green-sun-123" "alice" "pwhash" ⟨1, 2, 3, 4, 5⟩).users.lookup
          "guest-green-sun-123" ≠ none)
    ∧ ((create_local_user
        ⟨[("guest-green-sun-123", ⟨none, ⟨5, 10, 2, 3, 3⟩, true⟩)],
          [("guest-green-sun-123", [])]⟩
        true "guest-green-sun-123" "alice" "pwhash" ⟨1, 2, 3, 4, 5⟩).users.lookup
          "alice").map UserRec.baseline ≠ some (⟨5, 10, 2, 3, 3⟩ : HabitVals) := by
  decide

/-- C3 (amended): on local account creation from a guest session with a
fresh username, the guest's entry file is moved to the new username's file;
but the new user record's baseline is the one typed into the form, and the
guest's `users.json` record is left untouched (not deleted). -/
theorem C3_guest_migration (s : LocalState) (g new_user ph : String) (fB : HabitVals)
    (log : List Entry)
    (hfresh : s.users.lookup new_user = none)
    (hg : g ≠ "") (hgn : g ≠ new_user)
    (hfile : s.files.lookup g = some log) :
    (create_local_user s true g new_user ph fB).files.lookup new_user = some log
  ∧ (create_local_user s true g new_user ph fB).files.lookup g = none
  ∧ (create_local_user s true g new_user ph fB).users.lookup g = s.users.lookup g
  ∧ (create_local_user s true g new_user ph fB).users.lookup new_user
      = some ⟨some ph, fB, false⟩ := by
  have hcond : ¬((s.users.lookup new_user).isSome = true) := by
    rw [hfresh]; simp
  rw [create_local_user, if_neg hcond]
  dsimp only
  rw [if_pos ⟨rfl, hg⟩, hfile]
  refine ⟨lookup_setKey_self _ _ _, ?_, ?_, ?_⟩
  · rw [lookup_setKey_ne _ _ _ _ hgn, lookup_eraseKey_self]
  · exact lookup_cons_ne _ _ _ _ hgn
  · exact lookup_cons_eq _ _ _

/-- Witness for C3 at a concrete input. -/
theorem C3_guest_migration_witness :
    (([("guest-blue-oak-500", UserRec.mk none ⟨5, 10, 2, 3, 3⟩ true)].lookup "bob"
        = (none : Option UserRec))
      ∧ "guest-blue-oak-500" ≠ ""
      ∧ "guest-blue-oak-500" ≠ "bob"
      ∧ [("guest-blue-oak-500", ([] : List Entry))].lookup "guest-blue-oak-500" = some [])
    ∧ ((create_local_user
          ⟨[("guest-blue-oak-500", UserRec.mk none ⟨5, 10, 2, 3, 3⟩ true)],
            [("guest-blue-oak-500", [])]⟩
          true "guest-blue-oak-500" "bob" "pwhash" ⟨7, 7, 7, 7, 7⟩).files.lookup "bob"
          = some []
      ∧ (create_local_user
          ⟨[("guest-blue-oak-500", UserRec.mk none ⟨5, 10, 2, 3, 3⟩ true)],
            [("guest-blue-oak-500", [])]⟩
          true "guest-blue-oak-500" "bob" "pwhash" ⟨7, 7, 7, 7, 7⟩).files.lookup
          "guest-blue-oak-500" = none
      ∧ (create_local_user
          ⟨[("guest-blue-oak-500", UserRec.mk none ⟨5, 10, 2, 3, 3⟩ true)],
            [("guest-blue-oak-500", [])]⟩
          true "guest-blue-oak-500" "bob" "pwhash" ⟨7, 7, 7, 7, 7⟩).users.lookup
          "guest-blue-oak-500"
          = [("guest-blue-oak-500", UserRec.mk none ⟨5, 10, 2, 3, 3⟩ true)].lookup
              "guest-blue-oak-500"
      ∧ (create_local_user
          ⟨[("guest-blue-oak-500", UserRec.mk none ⟨5, 10, 2, 3, 3⟩ true)],
            [("guest-blue-oak-500", [])]⟩
          true "guest-blue-oak-500" "bob" "pwhash" ⟨7, 7, 7, 7, 7⟩).users.lookup "bob"
          = some ⟨some "pwhash", ⟨7, 7, 7, 7, 7⟩, false⟩) :=
  ⟨⟨by decide, by decide, by decide, by decide⟩,
   C3_guest_migration
     ⟨[("guest-blue-oak-500", UserRec.mk none ⟨5, 10, 2, 3, 3⟩ true)],
       [("guest-blue-oak-500", [])]⟩
     "guest-blue-oak-500" "bob" "pwhash" ⟨7, 7, 7, 7, 7⟩ []
     (by decide) (by decide) (by decide) (by decide)⟩

/-! Section: C5: the leaderboard -/

/-- In a list with duplicate-free keys, two pairs with the same key are
bound to the same value. -/
theorem nodup_key_unique {β : Type} {l : List (String × β)} (h : (l.map Prod.fst).Nodup)
    {u : String} {a b : β} (ha : (u, a) ∈ l) (hb : (u, b) ∈ l) : a = b := by
  induction l with
  | nil => cases ha
  | cons p t ih =>
    simp only [List.map_cons, List.nodup_cons] at h
    rcases List.mem_cons.mp ha with h1 | h1
    · rcases List.mem_cons.mp hb with h2 | h2
      · rw [← h1] at h2
        exact ((Prod.ext_iff.mp h2).2).symm
      · exfalso
        apply h.1
        rw [← h1]
        simpa using List.mem_map_of_mem Prod.fst h2
    · rcases List.mem_cons.mp hb with h2 | h2
      · exfalso
        apply h.1
        rw [← h2]
        simpa using List.mem_map_of_mem Prod.fst h1
      · exact ih h.2 h1 h2

/-- Membership in the local leaderboard: exactly the non-guest users whose
entry file exists, paired with their file's total savings. -/
theorem mem_leaderboard_iff (users : List (String × UserRec))
    (files : List (String × List Entry)) (q : String × ℚ) :
    q ∈ leaderboard users files ↔
      ∃ rec log, (q.1, rec) ∈ users ∧ rec.is_guest = false
        ∧ files.lookup q.1 = some log ∧ q.2 = userTotal log := by
  rw [leaderboard, List.mem_insertionSort, List.mem_filterMap]
  constructor
  · rintro ⟨⟨u, rec⟩, hp, hf⟩
    by_cases hg : rec.is_guest = true
    · rw [if_pos hg] at hf
      cases hf
    · rw [if_neg hg] at hf
      rcases Option.map_eq_some'.mp hf with ⟨log, hlog, hq⟩
      obtain ⟨qu, qt⟩ := q
      obtain ⟨hq1, hq2⟩ := Prod.ext_iff.mp hq
      dsimp at hq1 hq2 hlog
      subst hq1
      exact ⟨rec, log, hp, Bool.not_eq_true _ ▸ hg, hlog, hq2.symm⟩
  · rintro ⟨rec, log, hmem, hg, hlook, hq⟩
    obtain ⟨qu, qt⟩ := q
    dsimp at hmem hlook hq
    subst hq
    exact ⟨(qu, rec), hmem, by rw [if_neg (by rw [hg]; simp), hlook]; rfl⟩

/-- C5 (counterexample): a non-guest user whose entry file does not exist
yet (a fresh account with no entries) is omitted from the leaderboard
instead of being paired with the sum over its (empty) entry history. -/
theorem C5_counterexample :
    leaderboard [("alice", UserRec.mk (some "h") ⟨5, 10, 2, 3, 3⟩ false)] [] = []
    ∧ (UserRec.mk (some "h") ⟨5, 10, 2, 3, 3⟩ false).is_guest = false :=
  ⟨rfl, rfl⟩

/-- C5 (amended): the local leaderboard contains no guest users; every row
pairs a non-guest user having an entry file with the sum of `co2_saved`
over that file; every non-guest user whose entry file exists appears; and
the rows are sorted in descending order of total.  Non-guest users without
an entry file are omitted. -/
theorem C5_leaderboard (users : List (String × UserRec)) (files : List (String × List Entry))
    (hnd : (users.map Prod.fst).Nodup) :
    (∀ p ∈ leaderboard users files, ∀ rec : UserRec, (p.1, rec) ∈ users →
      rec.is_guest = false)
  ∧ (∀ p ∈ leaderboard users files, ∃ rec log, (p.1, rec) ∈ users ∧ rec.is_guest = false
      ∧ files.lookup p.1 = some log ∧ p.2 = userTotal log)
  ∧ (∀ (u : String) (rec : UserRec) (log : List Entry), (u, rec) ∈ users →
      rec.is_guest = false → files.lookup u = some log →
      (u, userTotal log) ∈ leaderboard users files)
  ∧ (leaderboard users files).Sorted byTotalDesc := by
  refine ⟨?_, ?_, ?_, ?_⟩
  · intro p hp rec hrec
    rcases (mem_leaderboard_iff users files p).mp hp with ⟨rec2, log, hmem, hg, _, _⟩
    rw [nodup_key_unique hnd hrec hmem]
    exact hg
  · intro p hp
    exact (mem_leaderboard_iff users files p).mp hp
  · intro u rec log hmem hg hlook
    exact (mem_leaderboard_iff users files (u, userTotal log)).mpr
      ⟨rec, log, hmem, hg, hlook, rfl⟩
  · exact List.sorted_insertionSort byTotalDesc _

/-- Witness for C5 at a concrete input. -/
theorem C5_leaderboard_witness :
    (([("u", UserRec.mk (some "h") ⟨0, 0, 0, 0, 0⟩ false)].map Prod.fst).Nodup)
    ∧ ((∀ p ∈ leaderboard [("u", UserRec.mk (some "h") ⟨0, 0, 0, 0, 0⟩ false)]
            [("u", ([] : List Entry))],
          ∀ rec : UserRec, (p.1, rec) ∈ [("u", UserRec.mk (some "h") ⟨0, 0, 0, 0, 0⟩ false)] →
            rec.is_guest = false)
      ∧ (∀ p ∈ leaderboard [("u", UserRec.mk (some "h") ⟨0, 0, 0, 0, 0⟩ false)]
            [("u", ([] : List Entry))],
          ∃ rec log,
            (p.1, rec) ∈ [("u", UserRec.mk (some "h") ⟨0, 0, 0, 0, 0⟩ false)]
            ∧ rec.is_guest = false
            ∧ [("u", ([] : List Entry))].lookup p.1 = some log ∧ p.2 = userTotal log)
      ∧ (∀ (u : String) (rec : UserRec) (log : List Entry),
          (u, rec) ∈ [("u", UserRec.mk (some "h") ⟨0, 0, 0, 0, 0⟩ false)] →
          rec.is_guest = false → [("u", ([] : List Entry))].lookup u = some log →
          (u, userTotal log) ∈ leaderboard [("u", UserRec.mk (some "h") ⟨0, 0, 0, 0, 0⟩ false)]
            [("u", ([] : List Entry))])
      ∧ (leaderboard [("u", UserRec.mk (some "h") ⟨0, 0, 0, 0, 0⟩ false)]
          [("u", ([] : List Entry))]).Sorted byTotalDesc) :=
  ⟨by decide, C5_leaderboard _ _ (by decide)⟩

/-! Section: C4: lemmas on `maxDate`, the date lists and the flags -/

/-- The maximum of a nonempty date list is one of its elements. -/
theorem maxDate_mem {l : List ℕ} {m : ℕ} (h : maxDate l = some m) : m ∈ l := by
  induction l generalizing m with
  | nil => cases h
  | cons d ds ih =>
    rw [maxDate] at h
    injection h with h
    cases hds : maxDate ds with
    | none =>
      rw [hds] at h
      dsimp only at h
      subst h
      exact List.mem_cons_self d ds
    | some m2 =>
      rw [hds] at h
      dsimp only at h
      rcases max_choice d m2 with hc | hc
      · rw [hc] at h
        subst h
        exact List.mem_cons_self d ds
      · rw [hc] at h
        subst h
        exact List.mem_cons_of_mem d (ih hds)

/-- The maximum of a date list bounds every element. -/
theorem maxDate_is_ub {l : List ℕ} {m : ℕ} (h : maxDate l = some m) :
    ∀ x ∈ l, x ≤ m := by
  induction l generalizing m with
  | nil => intro x hx; cases hx
  | cons d ds ih =>
    rw [maxDate] at h
    injection h with h
    intro x hx
    cases hds : maxDate ds with
    | none =>
      rw [hds] at h
      dsimp only at h
      have hnil : ds = [] := by
        cases ds with
        | nil => rfl
        | cons a t => rw [maxDate] at hds; cases hds
      subst hnil
      rcases List.mem_cons.mp hx with h1 | h1
      · omega
      · cases h1
    | some m2 =>
      rw [hds] at h
      dsimp only at h
      rcases List.mem_cons.mp hx with h1 | h1
      · subst h1
        rw [← h]
        exact le_max_left _ _
      · have hx2 : x ≤ m2 := ih hds x h1
        have : m2 ≤ max d m2 := le_max_right _ _
        omega

/-- The function `maxDate` is `none` exactly on the empty list. -/
theorem maxDate_eq_none_iff {l : List ℕ} : maxDate l = none ↔ l = [] := by
  cases l with
  | nil => simp [maxDate]
  | cons d ds => simp [maxDate]

/-- Membership in the daily-date list. -/
theorem mem_dailyDates {es : List Entry} {x : ℕ} :
    x ∈ dailyDates es ↔ ∃ e ∈ es, e.entry_type = "daily" ∧ e.date = x := by
  simp only [dailyDates, List.mem_map, List.mem_filter, beq_iff_eq]
  constructor
  · rintro ⟨e, ⟨he, ht⟩, hd⟩
    exact ⟨e, he, ht, hd⟩
  · rintro ⟨e, he, ht, hd⟩
    exact ⟨e, ⟨he, ht⟩, hd⟩

/-- Membership in the weekly-date list. -/
theorem mem_weeklyDates {es : List Entry} {x : ℕ} :
    x ∈ weeklyDates es ↔ ∃ e ∈ es, e.entry_type = "weekly" ∧ e.date = x := by
  simp only [weeklyDates, List.mem_map, List.mem_filter, beq_iff_eq]
  constructor
  · rintro ⟨e, ⟨he, ht⟩, hd⟩
    exact ⟨e, he, ht, hd⟩
  · rintro ⟨e, he, ht, hd⟩
    exact ⟨e, ⟨he, ht⟩, hd⟩

/-- The ISO week number only depends on the Monday-aligned week block. -/
theorem isoWeekNum_congr {a c : ℕ} (h : isoWeekBlock a = isoWeekBlock c) :
    isoWeekNum a = isoWeekNum c := by
  unfold isoWeekNum isoThursday
  rw [h]

/-- When every entry is dated at most `today`, `has_daily` holds exactly
when a daily entry dated today exists. -/
theorem has_daily_iff {es : List Entry} {today : ℕ} (hb : Bounded es today) :
    has_daily es today = true ↔ ∃ e ∈ es, e.entry_type = "daily" ∧ e.date = today := by
  rw [has_daily]
  cases hmd : maxDate (dailyDates es) with
  | none =>
    have hnil := maxDate_eq_none_iff.mp hmd
    constructor
    · intro hfalse; cases hfalse
    · rintro ⟨e, he, ht, hd⟩
      have hmem : today ∈ dailyDates es := mem_dailyDates.mpr ⟨e, he, ht, hd⟩
      rw [hnil] at hmem
      cases hmem
  | some m =>
    constructor
    · intro hm
      have hmt : m = today := by simpa using hm
      rcases mem_dailyDates.mp (maxDate_mem hmd) with ⟨e, he, ht, hd⟩
      exact ⟨e, he, ht, by rw [hd, hmt]⟩
    · rintro ⟨e, he, ht, hd⟩
      have hxm : today ≤ m := maxDate_is_ub hmd _ (mem_dailyDates.mpr ⟨e, he, ht, hd⟩)
      have hm_le : m ≤ today := by
        rcases mem_dailyDates.mp (maxDate_mem hmd) with ⟨e2, he2, _, hd2⟩
        rw [← hd2]
        exact hb e2 he2
      have : m = today := le_antisymm hm_le hxm
      simpa using this

/-- When every entry is dated at most `today`, a weekly entry in today's
ISO week forces `has_weekly` (the converse fails: the flag compares week
numbers only). -/
theorem has_weekly_of_exists {es : List Entry} {today : ℕ} (hb : Bounded es today)
    (h : ∃ e ∈ es, e.entry_type = "weekly" ∧ isoWeekBlock e.date = isoWeekBlock today) :
    has_weekly es today = true := by
  rcases h with ⟨e, he, ht, hblk⟩
  have hmem : e.date ∈ weeklyDates es := mem_weeklyDates.mpr ⟨e, he, ht, rfl⟩
  cases hmd : maxDate (weeklyDates es) with
  | none =>
    rw [maxDate_eq_none_iff.mp hmd] at hmem
    cases hmem
  | some m =>
    have h1 : e.date ≤ m := maxDate_is_ub hmd _ hmem
    have h2 : m ≤ today := by
      rcases mem_weeklyDates.mp (maxDate_mem hmd) with ⟨e2, he2, _, hd2⟩
      rw [← hd2]
      exact hb e2 he2
    have hblkm : isoWeekBlock m = isoWeekBlock today := by
      have l1 : (e.date + 3) / 7 ≤ (m + 3) / 7 := Nat.div_le_div_right (by omega)
      have l2 : (m + 3) / 7 ≤ (today + 3) / 7 := Nat.div_le_div_right (by omega)
      simp only [isoWeekBlock] at hblk ⊢
      omega
    rw [has_weekly, hmd]
    simpa using isoWeekNum_congr hblkm

/-- Appending one element keeps a `countP` bound of one, provided the
element can only match when the existing count is zero. -/
theorem countP_append_singleton_le {α : Type} (p : α → Bool) (l : List α) (x : α)
    (h0 : p x = true → l.countP p = 0) (h1 : l.countP p ≤ 1) :
    (l ++ [x]).countP p ≤ 1 := by
  rw [List.countP_append]
  by_cases hx : p x = true
  · rw [h0 hx, List.countP_singleton, if_pos hx]
  · rw [List.countP_singleton, if_neg hx]
    omega

/-- One gated submission preserves the entry-log invariant, moving the
date bound forward to the submission date. -/
theorem good_step (b : HabitVals) {es : List Entry} {d d2 : ℕ}
    (hg : Good es d) (hd : d ≤ d2) (op : Op) :
    Good (step b es d2 op) d2 := by
  obtain ⟨hb, hdaily, hweekly⟩ := hg
  have hb2 : Bounded es d2 := fun e he => le_trans (hb e he) hd
  cases op with
  | daily m s p =>
    rw [step]
    by_cases hflag : has_daily es d2 = true
    · rw [if_pos hflag]
      exact ⟨hb2, hdaily, hweekly⟩
    · rw [if_neg hflag]
      have hnone : ∀ e ∈ es, ¬(e.entry_type = "daily" ∧ e.date = d2) := by
        intro e he hcon
        exact hflag ((has_daily_iff hb2).mpr ⟨e, he, hcon.1, hcon.2⟩)
      refine ⟨?_, ?_, ?_⟩
      · intro e he
        rcases List.mem_append.mp he with h1 | h1
        · exact hb2 e h1
        · rw [List.mem_singleton.mp h1]
          exact le_refl d2
      · intro dd
        apply countP_append_singleton_le
        · intro hpx
          simp only [mkDailyEntry, Bool.and_eq_true, beq_iff_eq] at hpx
          rw [List.countP_eq_zero]
          intro e he
          simp only [Bool.and_eq_true, beq_iff_eq, not_and]
          intro ht hdte
          exact hnone e he ⟨ht, by rw [hdte, hpx.2]⟩
        · exact hdaily dd
      · intro w
        apply countP_append_singleton_le
        · intro hpx
          simp [mkDailyEntry] at hpx
        · exact hweekly w
  | weekly t l =>
    rw [step]
    by_cases hflag : has_weekly es d2 = true
    · rw [if_pos hflag]
      exact ⟨hb2, hdaily, hweekly⟩
    · rw [if_neg hflag]
      have hnone : ∀ e ∈ es,
          ¬(e.entry_type = "weekly" ∧ isoWeekBlock e.date = isoWeekBlock d2) := by
        intro e he hcon
        exact hflag (has_weekly_of_exists hb2 ⟨e, he, hcon.1, hcon.2⟩)
      refine ⟨?_, ?_, ?_⟩
      · intro e he
        rcases List.mem_append.mp he with h1 | h1
        · exact hb2 e h1
        · rw [List.mem_singleton.mp h1]
          exact le_refl d2
      · intro dd
        apply countP_append_singleton_le
        · intro hpx
          simp [mkWeeklyEntry] at hpx
        · exact hdaily dd
      · intro w
        apply countP_append_singleton_le
        · intro hpx
          simp only [mkWeeklyEntry, Bool.and_eq_true, beq_iff_eq] at hpx
          rw [List.countP_eq_zero]
          intro e he
          simp only [Bool.and_eq_true, beq_iff_eq, not_and]
          intro ht hblk
          exact hnone e he ⟨ht, by rw [hblk, hpx.2]⟩
        · exact hweekly w

/-- Running a date-sorted trace of gated submissions preserves the
invariant through to the last submission date. -/
theorem runFrom_good (b : HabitVals) :
    ∀ (tr : List (ℕ × Op)) (es : List Entry) (d : ℕ),
      Good es d → sortedFrom d tr → Good (runFrom b es tr) (endDate d tr) := by
  intro tr
  induction tr with
  | nil =>
    intro es d hg _
    exact hg
  | cons ev rest ih =>
    rcases ev with ⟨d2, op⟩
    intro es d hg hs
    exact ih _ _ (good_step b hg hs.1 op) hs.2

/-- Date-sortedness of a trace is decidable (used to evaluate concrete
traces). -/
instance instDecidableSortedFrom : (d : ℕ) → (tr : List (ℕ × Op)) → Decidable (sortedFrom d tr)
  | _, [] => Decidable.isTrue trivial
  | d, (e, _) :: tr =>
    haveI : Decidable (sortedFrom e tr) := instDecidableSortedFrom e tr
    inferInstanceAs (Decidable (d ≤ e ∧ sortedFrom e tr))

/-- C4 (counterexample): the biconditional for `has_weekly` fails.  Run
one weekly submission on day 19732 (2024-01-10, ISO week 2 of 2024); on
day 20096 (2025-01-08, ISO week 2 of 2025, a valid later "today") the
`has_weekly` flag is true although no weekly entry dated in the current
ISO week exists — the code compares ISO week numbers without the year. -/
theorem C4_counterexample :
    sortedFrom 0 [(19732, Op.weekly 0 0)]
  ∧ endDate 0 [(19732, Op.weekly 0 0)] ≤ 20096
  ∧ has_weekly (runTrace ⟨5, 10, 2, 3, 3⟩ [(19732, Op.weekly 0 0)]) 20096 = true
  ∧ (∀ e ∈ runTrace ⟨5, 10, 2, 3, 3⟩ [(19732, Op.weekly 0 0)],
      ¬(e.entry_type = "weekly" ∧ isoWeekBlock e.date = isoWeekBlock 20096)) := by
  refine ⟨by decide, by decide, by decide, by decide⟩

/-- C4 (amended): starting from an empty entry log, any date-sorted
sequence of gated daily/weekly submissions yields an entry log with at
most one daily entry per calendar date and at most one weekly entry per
ISO week; for any `today` no earlier than the last submission,
`has_daily` is true iff a daily entry dated today exists, and a weekly
entry dated in the current ISO week forces `has_weekly` to be true (but
not conversely: `has_weekly` compares ISO week numbers without the
year). -/
theorem C4_gated_ui (b : HabitVals) (tr : List (ℕ × Op)) (today : ℕ)
    (hs : sortedFrom 0 tr) (ht : endDate 0 tr ≤ today) :
    DailyAtMostOne (runTrace b tr)
  ∧ WeeklyAtMostOne (runTrace b tr)
  ∧ (has_daily (runTrace b tr) today = true ↔
      ∃ e ∈ runTrace b tr, e.entry_type = "daily" ∧ e.date = today)
  ∧ ((∃ e ∈ runTrace b tr, e.entry_type = "weekly"
        ∧ isoWeekBlock e.date = isoWeekBlock today) →
      has_weekly (runTrace b tr) today = true) := by
  have hgood : Good (runTrace b tr) (endDate 0 tr) := by
    apply runFrom_good b tr [] 0 ?_ hs
    refine ⟨fun e he => absurd he (List.not_mem_nil e), fun dd => ?_, fun w => ?_⟩
    · simp [List.countP_nil]
    · simp [List.countP_nil]
  have hb : Bounded (runTrace b tr) today := fun e he => le_trans (hgood.1 e he) ht
  exact ⟨hgood.2.1, hgood.2.2, has_daily_iff hb, has_weekly_of_exists hb⟩

/-- Witness for C4 at a concrete input: one daily submission on day 100,
checked on day 100. -/
theorem C4_gated_ui_witness :
    (sortedFrom 0 [(100, Op.daily 1 1 1)] ∧ endDate 0 [(100, Op.daily 1 1 1)] ≤ 100)
    ∧ (DailyAtMostOne (runTrace ⟨5, 10, 2, 3, 3⟩ [(100, Op.daily 1 1 1)])
      ∧ WeeklyAtMostOne (runTrace ⟨5, 10, 2, 3, 3⟩ [(100, Op.daily 1 1 1)])
      ∧ (has_daily (runTrace ⟨5, 10, 2, 3, 3⟩ [(100, Op.daily 1 1 1)]) 100 = true ↔
          ∃ e ∈ runTrace ⟨5, 10, 2, 3, 3⟩ [(100, Op.daily 1 1 1)],
            e.entry_type = "daily" ∧ e.date = 100)
      ∧ ((∃ e ∈ runTrace ⟨5, 10, 2, 3, 3⟩ [(100, Op.daily 1 1 1)],
            e.entry_type = "weekly" ∧ isoWeekBlock e.date = isoWeekBlock 100) →
          has_weekly (runTrace ⟨5, 10, 2, 3, 3⟩ [(100, Op.daily 1 1 1)]) 100 = true)) :=
  ⟨⟨by decide, by decide⟩,
   C4_gated_ui ⟨5, 10, 2, 3, 3⟩ [(100, Op.daily 1 1 1)] 100 (by decide) (by decide)⟩

end SustainApp
